import Mathlib

/-!
# Verification of the room-assistant cluster service

Shallow embedding of `src/cluster/cluster.service.ts` (class `ClusterService
extends Democracy`).  The parts of the behaviour implemented in the repository
itself are translated directly from that file.  Behaviour inherited from the
external `democracy` dependency (node registry bookkeeping, `isLeader`,
the inherited part of `checkBallots`, timer-driven purge, message-driven
upsert) is not part of the repository's sources and is modelled from the
specification, as marked in the individual doc comments.
-/

/-- Lifecycle state of a known cluster node (spec §3, `democracy` node state). -/
inductive NodeState
  | new
  | active
  | suspect
  | removed
  deriving DecidableEq, Repr

/-- A node entry of the registry (`this._nodes[id]` in the source).
`disconnected` models the pending purge-timer handle: `some t` when a timer is
armed, `none` after `clearTimeout`/`delete node.disconnected`. -/
structure DNode where
  source : String
  state : NodeState
  disconnected : Option Nat
  deriving DecidableEq, Repr

/-- Aggregate engine state.  `nodes` is the association list behind the JS
object `this._nodes`; `peers` is `this.options.peers` (a JS array of string
arrays); `peerAddresses` is `this.config.peerAddresses` (the manually
configured `host:port` strings); `quorum` is `this.config.quorum`. -/
structure ClusterState where
  localId : String
  leaderId : Option String
  nodes : List (String × DNode)
  peers : List (List String)
  peerAddresses : List String
  quorum : Nat
  deriving Repr

/-- Translation of `quorumReached()` from the source:
`!this.config.quorum || activeNodes.length >= this.config.quorum` where
`activeNodes` filters `node.state !== 'removed'` over `this.nodes()`. -/
def quorumReached (s : ClusterState) : Bool :=
  let activeNodes := s.nodes.filter (fun p => p.2.state ≠ NodeState.removed)
  s.quorum == 0 || decide (activeNodes.length ≥ s.quorum)

/-- Modelled from the spec: `Democracy.prototype.isLeader` is part of the
external `democracy` dependency; per the spec it answers whether the local
node is the current `leaderId`. -/
def isLeader (s : ClusterState) : Bool :=
  s.leaderId == some s.localId

/-- Translation of `isMajorityLeader()` from the source:
`return this.isLeader() && this.quorumReached();`. -/
def isMajorityLeader (s : ClusterState) : Bool :=
  isLeader s && quorumReached s

/-- The count of nodes whose state is not `removed` (the spec's
"active-node count" used by the quorum formula). -/
def activeNodeCount (s : ClusterState) : Nat :=
  (s.nodes.filter (fun p => p.2.state ≠ NodeState.removed)).length

/-- The quorum formula in the spec's own words:
`q == 0 OR n >= q` for threshold `q` and active-node count `n`. -/
def quorumReachedSpec (q n : Nat) : Bool :=
  q == 0 || decide (n ≥ q)

/-- Matching of two peer entries by host and port, as in the source's
`p[0] === peer[0] && p[1] === peer[1]` (JS index accesses are modelled with
`List.get?`, so an out-of-range access on both sides — `undefined === undefined`
— still compares equal). -/
def peerMatches (p q : List String) : Bool :=
  p.get? 0 == q.get? 0 && p.get? 1 == q.get? 1

/-- One iteration of the `peers.forEach` body of `addMissingPeers`: look up
the incoming entry in the (mutated-so-far) peer array with `findIndex`, and
push it when absent. -/
def addMissingPeersStep (acc : List (List String)) (peer : List String) :
    List (List String) :=
  if ((acc.findIdx? fun p => peerMatches p peer)).isSome then acc
  else acc ++ [peer]

/-- Translation of `addMissingPeers(peers)` from the source: the `forEach` loop
mutates `this.options.peers` in place, so each incoming entry is checked
against the array as grown by the previous iterations. -/
def addMissingPeers (optionsPeers : List (List String))
    (incoming : List (List String)) : List (List String) :=
  incoming.foldl addMissingPeersStep optionsPeers

/-- Apply a function to the node stored under `id` (the JS mutation
`this._nodes[id].field = ...`), leaving every other entry untouched. -/
def updateNode (nodes : List (String × DNode)) (id : String)
    (f : DNode → DNode) : List (String × DNode) :=
  nodes.map fun p => if p.1 == id then (p.1, f p.2) else p

/-- Modelled from the spec: `super.checkBallots(candidate)` lives in the
external `democracy` dependency.  Per the spec (§4.2, §4.5), when the removal
ballot against `candidate` reaches a majority the node transitions to
`removed` and a purge timer (`node.disconnected`) is armed; otherwise the
registry is unchanged.  The majority outcome is passed in as `majority`. -/
def superCheckBallots (s : ClusterState) (candidate : String)
    (majority : Bool) : ClusterState :=
  if majority then
    { s with
      nodes := updateNode s.nodes candidate fun n =>
        { n with state := NodeState.removed, disconnected := some 3600000 } }
  else s

/-- The overridden `checkBallots(candidate)` translated from the source: call
`super.checkBallots`, read `this._nodes[candidate]` and its `source` field
with no guard (`none` models the JS `TypeError` thrown by `node.source` when
the candidate is not a key of the map), and when `source` is among the
manually configured `peerAddresses`, cancel and delete the `disconnected`
purge timer. -/
def checkBallots (s : ClusterState) (candidate : String)
    (majority : Bool) : Option ClusterState :=
  match (superCheckBallots s candidate majority).nodes.lookup candidate with
  | none => none
  | some node =>
    if (superCheckBallots s candidate majority).peerAddresses.contains
        node.source then
      some { superCheckBallots s candidate majority with
        nodes := updateNode (superCheckBallots s candidate majority).nodes
          candidate fun n => { n with disconnected := none } }
    else
      some (superCheckBallots s candidate majority)

/-- Modelled from the spec: the purge step of the external `democracy`
dependency.  The `disconnected` timer, when armed, deletes the candidate's
entry from the node map after the grace period; a node whose timer was
cleared is never deleted. -/
def purgeFires (s : ClusterState) (id : String) : ClusterState :=
  match s.nodes.lookup id with
  | some n =>
    if n.disconnected.isSome then
      { s with nodes := s.nodes.filter fun p => p.1 ≠ id }
    else s
  | none => s

/-- Modelled from the spec: in the external `democracy` dependency every
received message refreshes the sender's node (`upsert`), returning an existing
entry to `active` and cancelling its removal bookkeeping, or inserting a fresh
`active` entry when the id is unknown. -/
def upsertNode (s : ClusterState) (id source : String) : ClusterState :=
  match s.nodes.lookup id with
  | some _ =>
    { s with
      nodes := updateNode s.nodes id fun n =>
        { n with state := NodeState.active, disconnected := none } }
  | none =>
    { s with
      nodes := (id, ⟨source, NodeState.active, none⟩) :: s.nodes }

/-- One address record of `os.networkInterfaces()` (Node's
`NetworkInterfaceInfo`). -/
structure NetworkInterfaceInfo where
  address : String
  family : String
  internal : Bool
  deriving DecidableEq, Repr

/-- The predicate of the constructor's `find`:
`address.internal === false && address.family === 'IPv4'`. -/
def usableAddress (a : NetworkInterfaceInfo) : Bool :=
  a.internal == false && a.family == "IPv4"

/-- The address-selection and `source` computation of the constructor,
translated from the source: `networkInterfaces.find(...).address` followed by
`` source: `${ip}:${config.port}` ``.  `Except.error` models the JS
`TypeError` thrown by `.address` when `find` returns `undefined`; this is the
only failing step of the constructor. -/
def constructorSource (interfaces : List NetworkInterfaceInfo)
    (port : Nat) : Except String String :=
  match interfaces.find? usableAddress with
  | none => Except.error "TypeError: cannot read property address of undefined"
  | some a => Except.ok (a.address ++ ":" ++ toString port)

/-- The externally observable actions of `onApplicationBootstrap`. -/
structure BootstrapActions where
  discoveryStarted : Bool
  warned : Bool
  peersBroadcast : Bool
  deriving DecidableEq, Repr

/-- Translation of `onApplicationBootstrap()` from the source: when
`config.autoDiscovery` is set, start mDNS discovery if the optional `mdns`
dependency loaded, else log a warning; in every case call
`broadcastPeers()`. -/
def onApplicationBootstrap (autoDiscovery mdnsAvailable : Bool) :
    BootstrapActions :=
  if autoDiscovery then
    if mdnsAvailable then
      { discoveryStarted := true, warned := false, peersBroadcast := true }
    else
      { discoveryStarted := false, warned := true, peersBroadcast := true }
  else
    { discoveryStarted := false, warned := false, peersBroadcast := true }

/-- The resources of the running engine that shutdown could release:
the mDNS advertisement and browser created by `startBonjourDiscovery`, the
armed node-removal timers, and the periodic gossip interval of the inherited
`democracy` engine. -/
structure EngineResources where
  advertisementRunning : Bool
  browserRunning : Bool
  removalTimers : List String
  gossipIntervalActive : Bool
  deriving DecidableEq, Repr

/-- Translation of `onApplicationShutdown()` from the source: its whole body is
`this.advertisement?.stop(); this.browser?.stop();` — it stops the mDNS
advertisement and browser and touches nothing else. -/
def onApplicationShutdown (r : EngineResources) : EngineResources :=
  { r with advertisementRunning := false, browserRunning := false }

/-- A discovered mDNS service as delivered to `handleNodeDiscovery`. -/
structure Service where
  addresses : List String
  port : Nat
  deriving DecidableEq, Repr

/-- The guard of `handleNodeDiscovery`: some discovered address equals one of
this node's own interface addresses, or some discovered address together with
the service port is already present in `this.options.peers`. -/
def discoveryIgnored (ownIps : List String) (peers : List (List String))
    (service : Service) : Bool :=
  service.addresses.any (fun address => ownIps.contains address) ||
    peers.any fun peer =>
      service.addresses.any fun address =>
        peer.get? 0 == some address &&
          peer.get? 1 == some (toString service.port)

/-- Translation of `handleNodeDiscovery(service)` from the source: when the guard
holds, return with no change; otherwise push
`[service.addresses[0], service.port.toString()]` onto `this.options.peers`
and send a single `hello`.  The returned boolean records whether the `hello`
was sent. -/
def handleNodeDiscovery (ownIps : List String) (peers : List (List String))
    (service : Service) : List (List String) × Bool :=
  if discoveryIgnored ownIps peers service then
    (peers, false)
  else
    (peers ++ [[service.addresses.headD "undefined",
      toString service.port]], true)

/-! ## Theorems -/

/-- C1: `isMajorityLeader()` returns true iff the local node is the current
leader and `quorumReached()` is true; in particular it is false whenever
`quorumReached()` is false, regardless of `leaderId`. -/
theorem isMajorityLeader_iff (s : ClusterState) :
    (isMajorityLeader s = true ↔ (isLeader s = true ∧ quorumReached s = true)) ∧
    (quorumReached s = false → isMajorityLeader s = false) := by
  refine ⟨?_, ?_⟩
  · simp [isMajorityLeader]
  · intro h
    simp [isMajorityLeader, h]

/-- Witness for C1: a state that is leader but misses quorum. -/
theorem isMajorityLeader_iff_witness :
    isMajorityLeader ⟨"a", some "a", [], [], [], 1⟩ = false :=
  (isMajorityLeader_iff ⟨"a", some "a", [], [], [], 1⟩).2 (by decide)

/-- C2: `quorumReached()` equals the spec formula
`q == 0 OR count(nodes where state != removed) >= q`, and it is a pure query
of the quorum threshold and the node registry (it does not depend on any other
component of the state). -/
theorem quorumReached_eq_spec (s : ClusterState) :
    quorumReached s = quorumReachedSpec s.quorum (activeNodeCount s) ∧
    (∀ t : ClusterState, t.quorum = s.quorum → t.nodes = s.nodes →
      quorumReached t = quorumReached s) := by
  refine ⟨rfl, ?_⟩
  intro t hq hn
  simp [quorumReached, hq, hn]

/-- Witness for C2: two states agreeing only on quorum and nodes give the same
answer. -/
theorem quorumReached_eq_spec_witness :
    quorumReached ⟨"b", some "b", [], [["h", "p"]], ["x:1"], 2⟩ =
      quorumReached ⟨"a", none, [], [], [], 2⟩ :=
  (quorumReached_eq_spec ⟨"a", none, [], [], [], 2⟩).2
    ⟨"b", some "b", [], [["h", "p"]], ["x:1"], 2⟩ rfl rfl

theorem peerMatches_refl (p : List String) : peerMatches p p = true := by
  simp [peerMatches]

theorem addMissingPeersStep_eq_of_match {acc : List (List String)}
    {x : List String} (h : ∃ q ∈ acc, peerMatches q x = true) :
    addMissingPeersStep acc x = acc := by
  obtain ⟨q, hq, hm⟩ := h
  unfold addMissingPeersStep
  rw [if_pos]
  rw [List.findIdx?_isSome, List.any_eq_true]
  exact ⟨q, hq, hm⟩

theorem addMissingPeersStep_extends (acc : List (List String))
    (x : List String) : ∃ t, addMissingPeersStep acc x = acc ++ t := by
  unfold addMissingPeersStep
  split
  · exact ⟨[], by simp⟩
  · exact ⟨[x], rfl⟩

theorem addMissingPeers_cons (P : List (List String)) (x : List String)
    (L : List (List String)) :
    addMissingPeers P (x :: L) = addMissingPeers (addMissingPeersStep P x) L :=
  rfl

theorem addMissingPeers_extends (L : List (List String)) :
    ∀ P, ∃ t, addMissingPeers P L = P ++ t := by
  induction L with
  | nil => exact fun P => ⟨[], by simp [addMissingPeers]⟩
  | cons x L ih =>
    intro P
    obtain ⟨t1, h1⟩ := addMissingPeersStep_extends P x
    obtain ⟨t2, h2⟩ := ih (addMissingPeersStep P x)
    exact ⟨t1 ++ t2, by rw [addMissingPeers_cons, h2, h1, List.append_assoc]⟩

theorem exists_match_addMissingPeers (L : List (List String)) :
    ∀ P, ∀ x ∈ L, ∃ q ∈ addMissingPeers P L, peerMatches q x = true := by
  induction L with
  | nil => intro P x hx; cases hx
  | cons y L ih =>
    intro P x hx
    rw [addMissingPeers_cons]
    rcases List.mem_cons.mp hx with rfl | hx
    · have hq : ∃ q ∈ addMissingPeersStep P x, peerMatches q x = true := by
        unfold addMissingPeersStep
        split
        case isTrue h =>
          rw [List.findIdx?_isSome, List.any_eq_true] at h
          exact h
        case isFalse h =>
          exact ⟨x, by simp, peerMatches_refl x⟩
      obtain ⟨q, hq1, hq2⟩ := hq
      obtain ⟨t, ht⟩ := addMissingPeers_extends L (addMissingPeersStep P x)
      exact ⟨q, by rw [ht]; exact List.mem_append_left _ hq1, hq2⟩
    · exact ih (addMissingPeersStep P y) x hx

theorem addMissingPeers_eq_self {L P : List (List String)}
    (h : ∀ x ∈ L, ∃ q ∈ P, peerMatches q x = true) :
    addMissingPeers P L = P := by
  induction L with
  | nil => rfl
  | cons x L ih =>
    rw [addMissingPeers_cons, addMissingPeersStep_eq_of_match (h x (by simp))]
    exact ih fun y hy => h y (by simp [hy])

/-- C4: merging an incoming peer list is idempotent — applying
`addMissingPeers` with the same incoming list twice yields the same peer
array as applying it once. -/
theorem addMissingPeers_idempotent (P L : List (List String)) :
    addMissingPeers (addMissingPeers P L) L = addMissingPeers P L :=
  addMissingPeers_eq_self fun x hx => exists_match_addMissingPeers L P x hx

theorem addMissingPeers_added (L : List (List String)) :
    ∀ P, ∃ added, addMissingPeers P L = P ++ added ∧
      ∀ x ∈ added, x ∈ L ∧ ∀ q ∈ P, peerMatches q x = false := by
  induction L with
  | nil =>
    intro P
    exact ⟨[], by simp [addMissingPeers], by simp⟩
  | cons y L ih =>
    intro P
    rw [addMissingPeers_cons]
    unfold addMissingPeersStep
    split
    case isTrue h =>
      obtain ⟨added, h1, h2⟩ := ih P
      exact ⟨added, h1, fun x hx =>
        ⟨List.mem_cons_of_mem y (h2 x hx).1, (h2 x hx).2⟩⟩
    case isFalse h =>
      simp only [List.findIdx?_isSome, List.any_eq_true, not_exists, not_and,
        Bool.not_eq_true] at h
      obtain ⟨added, h1, h2⟩ := ih (P ++ [y])
      refine ⟨y :: added, ?_, ?_⟩
      · rw [h1, List.append_assoc, List.singleton_append]
      · intro x hx
        rcases List.mem_cons.mp hx with rfl | hx
        · exact ⟨List.mem_cons_self x L, h⟩
        · obtain ⟨hxL, hq⟩ := h2 x hx
          exact ⟨List.mem_cons_of_mem y hxL,
            fun q hqP => hq q (List.mem_append_left _ hqP)⟩

theorem addMissingPeers_pairwise (L : List (List String)) :
    ∀ P, P.Pairwise (fun a b => peerMatches a b = false) →
      (addMissingPeers P L).Pairwise (fun a b => peerMatches a b = false) := by
  induction L with
  | nil => exact fun P h => h
  | cons y L ih =>
    intro P hP
    rw [addMissingPeers_cons]
    apply ih
    unfold addMissingPeersStep
    split
    case isTrue h => exact hP
    case isFalse h =>
      simp only [List.findIdx?_isSome, List.any_eq_true, not_exists, not_and,
        Bool.not_eq_true] at h
      rw [List.pairwise_append]
      refine ⟨hP, List.pairwise_singleton _ _, ?_⟩
      intro a ha b hb
      rw [List.mem_singleton] at hb
      subst hb
      exact h a ha

/-- C5: a merge leaves the existing peer array as an untouched prefix,
appends only incoming entries with no `(host, port)` match among the entries
present when they are examined, represents every incoming entry by a matching
entry of the result, and preserves uniqueness by `(host, port)`. -/
theorem addMissingPeers_merge_spec (P L : List (List String))
    (hP : P.Pairwise fun a b => peerMatches a b = false) :
    (∃ added, addMissingPeers P L = P ++ added ∧
      ∀ x ∈ added, x ∈ L ∧ ∀ q ∈ P, peerMatches q x = false) ∧
    (∀ x ∈ L, ∃ q ∈ addMissingPeers P L, peerMatches q x = true) ∧
    (addMissingPeers P L).Pairwise (fun a b => peerMatches a b = false) :=
  ⟨addMissingPeers_added L P, exists_match_addMissingPeers L P,
    addMissingPeers_pairwise L P hP⟩

/-- Witness for C5: merging a list with one known and one new entry keeps the
result unique by `(host, port)`. -/
theorem addMissingPeers_merge_spec_witness :
    (addMissingPeers [["a", "1"]] [["a", "1"], ["b", "2"]]).Pairwise
      (fun a b => peerMatches a b = false) :=
  (addMissingPeers_merge_spec [["a", "1"]] [["a", "1"], ["b", "2"]]
    (List.pairwise_singleton _ _)).2.2


theorem lookup_updateNode (nodes : List (String × DNode)) (id : String)
    (f : DNode → DNode) :
    (updateNode nodes id f).lookup id = (nodes.lookup id).map f := by
  induction nodes with
  | nil => rfl
  | cons p nodes ih =>
    obtain ⟨k, v⟩ := p
    unfold updateNode at ih ⊢
    rw [List.map_cons]
    cases hbeq : (k == id) with
    | true =>
      have hk : k = id := by simpa using hbeq
      subst hk
      rw [if_pos (rfl : true = true)]
      rw [show ((k, v).1, f (k, v).2) = (k, f v) from rfl]
      rw [List.lookup_cons_self, List.lookup_cons_self, Option.map_some']
    | false =>
      have hid : (id == k) = false := by
        simp only [beq_eq_false_iff_ne] at hbeq ⊢
        exact Ne.symm hbeq
      rw [if_neg (show ¬(false = true) from by simp)]
      rw [List.lookup_cons, List.lookup_cons, hid]
      exact ih

theorem superCheckBallots_lookup (s : ClusterState) (c : String)
    (maj : Bool) :
    (superCheckBallots s c maj).nodes.lookup c =
      (s.nodes.lookup c).map fun n =>
        if maj then
          { n with state := NodeState.removed, disconnected := some 3600000 }
        else n := by
  unfold superCheckBallots
  cases maj with
  | false => simp
  | true => simp [lookup_updateNode]

theorem superCheckBallots_peerAddresses (s : ClusterState) (c : String)
    (maj : Bool) :
    (superCheckBallots s c maj).peerAddresses = s.peerAddresses := by
  unfold superCheckBallots
  split <;> rfl

theorem purgeFires_of_no_timer (t : ClusterState) (id : String) (n : DNode)
    (h : t.nodes.lookup id = some n) (hd : n.disconnected = none) :
    purgeFires t id = t := by
  unfold purgeFires
  simp [h, hd]

theorem upsertNode_active (t : ClusterState) (id src : String) (n : DNode)
    (h : t.nodes.lookup id = some n) :
    ∃ n'', (upsertNode t id src).nodes.lookup id = some n'' ∧
      n''.state = NodeState.active := by
  unfold upsertNode
  simp only [h]
  exact ⟨_, by rw [lookup_updateNode, h, Option.map_some'], rfl⟩

/-- C7: the unguarded `this._nodes[candidate]` / `node.source` access in the
overridden `checkBallots` succeeds exactly when the candidate is still a key
of the node map after the inherited ballot check; when it is not, the access
faults (the `none` outcome). -/
theorem checkBallots_safety (s : ClusterState) (c : String) (maj : Bool) :
    (checkBallots s c maj).isSome =
      ((superCheckBallots s c maj).nodes.lookup c).isSome := by
  unfold checkBallots
  cases h : (superCheckBallots s c maj).nodes.lookup c with
  | none => simp [h]
  | some node =>
    simp only [h]
    split <;> simp

/-- C3: a candidate whose `source` is among the manually configured
`peerAddresses` has its pending purge timer cancelled by the ballot check,
so the timer-driven purge never deletes its entry, and the next received
message returns it to `active`. -/
theorem manualPeer_never_purged (s : ClusterState) (c : String) (n : DNode)
    (maj : Bool) (hn : s.nodes.lookup c = some n)
    (hsrc : s.peerAddresses.contains n.source = true) :
    ∃ s'', checkBallots s c maj = some s'' ∧
      (∃ n', s''.nodes.lookup c = some n' ∧ n'.disconnected = none) ∧
      purgeFires s'' c = s'' ∧
      ∃ n'', (upsertNode (purgeFires s'' c) c n.source).nodes.lookup c =
          some n'' ∧ n''.state = NodeState.active := by
  have hlk := superCheckBallots_lookup s c maj
  rw [hn, Option.map_some'] at hlk
  obtain ⟨m, hlkm, hms⟩ : ∃ m : DNode,
      (superCheckBallots s c maj).nodes.lookup c = some m ∧
        m.source = n.source := by
    cases maj with
    | false => exact ⟨n, by simpa using hlk, rfl⟩
    | true =>
      exact ⟨⟨n.source, NodeState.removed, some 3600000⟩,
        by simpa using hlk, rfl⟩
  have hsrc' : (superCheckBallots s c maj).peerAddresses.contains
      m.source = true := by
    rw [superCheckBallots_peerAddresses, hms]
    exact hsrc
  have hlk2 : (updateNode (superCheckBallots s c maj).nodes c fun x =>
      { x with disconnected := none }).lookup c =
        some { m with disconnected := none } := by
    rw [lookup_updateNode, hlkm, Option.map_some']
  have hcb : checkBallots s c maj =
      some { superCheckBallots s c maj with
        nodes := updateNode (superCheckBallots s c maj).nodes c fun x =>
          { x with disconnected := none } } := by
    unfold checkBallots
    simp only [hlkm]
    rw [if_pos hsrc']
  have hpurge : purgeFires { superCheckBallots s c maj with
      nodes := updateNode (superCheckBallots s c maj).nodes c fun x =>
        { x with disconnected := none } } c =
      { superCheckBallots s c maj with
        nodes := updateNode (superCheckBallots s c maj).nodes c fun x =>
          { x with disconnected := none } } :=
    purgeFires_of_no_timer _ c { m with disconnected := none } hlk2 rfl
  refine ⟨_, hcb, ⟨_, hlk2, rfl⟩, hpurge, ?_⟩
  rw [hpurge]
  exact upsertNode_active _ c n.source { m with disconnected := none } hlk2

/-- Witness for C3: a suspect node with an armed timer whose source is the
single manually configured peer address survives the ballot check. -/
theorem manualPeer_never_purged_witness :
    ∃ s'', checkBallots
        ⟨"local", none,
          [("peer1", ⟨"10.0.0.2:6425", NodeState.suspect, some 99⟩)],
          [], ["10.0.0.2:6425"], 0⟩ "peer1" true = some s'' ∧
      (∃ n', s''.nodes.lookup "peer1" = some n' ∧ n'.disconnected = none) ∧
      purgeFires s'' "peer1" = s'' ∧
      ∃ n'', (upsertNode (purgeFires s'' "peer1") "peer1"
          "10.0.0.2:6425").nodes.lookup "peer1" = some n'' ∧
        n''.state = NodeState.active :=
  manualPeer_never_purged
    ⟨"local", none,
      [("peer1", ⟨"10.0.0.2:6425", NodeState.suspect, some 99⟩)],
      [], ["10.0.0.2:6425"], 0⟩ "peer1"
    ⟨"10.0.0.2:6425", NodeState.suspect, some 99⟩ true (by decide) (by decide)

/-- C6 as stated is false: a service reporting two unknown addresses has only
its first address appended to the peer list, not all of them. -/
theorem handleNodeDiscovery_counterexample :
    (handleNodeDiscovery [] [] ⟨["1.1.1.1", "2.2.2.2"], 6425⟩).1 =
        [["1.1.1.1", "6425"]] ∧
    ¬∃ p ∈ (handleNodeDiscovery [] [] ⟨["1.1.1.1", "2.2.2.2"], 6425⟩).1,
        p.get? 0 = some "2.2.2.2" := by
  decide

/-- C6 amended: when any discovered address matches an own interface address
or an existing `(address, port)` peer entry, the whole service is ignored (no
peer change, no hello); otherwise exactly one entry — the first discovered
address with the service port — is appended and a single hello is sent. -/
theorem handleNodeDiscovery_spec (ownIps : List String)
    (peers : List (List String)) (service : Service) (a : String)
    (rest : List String) (ha : service.addresses = a :: rest) :
    (discoveryIgnored ownIps peers service = true →
      handleNodeDiscovery ownIps peers service = (peers, false)) ∧
    (discoveryIgnored ownIps peers service = false →
      handleNodeDiscovery ownIps peers service =
        (peers ++ [[a, toString service.port]], true)) := by
  constructor
  · intro h
    simp [handleNodeDiscovery, h]
  · intro h
    simp [handleNodeDiscovery, h, ha]

/-- Witness for C6 (amended): one fresh address gets appended with a hello. -/
theorem handleNodeDiscovery_spec_witness :
    handleNodeDiscovery [] [] ⟨["3.3.3.3"], 1⟩ = ([["3.3.3.3", "1"]], true) :=
  (handleNodeDiscovery_spec [] [] ⟨["3.3.3.3"], 1⟩ "3.3.3.3" [] rfl).2
    (by decide)

/-- C8: the constructor's address selection succeeds iff some non-internal
IPv4 address exists among the selected interfaces (otherwise the `.address`
read throws — the only fatal startup condition in the constructor), and on
success `source` is the first such address joined with the configured
port. -/
theorem constructorSource_spec (interfaces : List NetworkInterfaceInfo)
    (port : Nat) :
    ((constructorSource interfaces port).isOk = true ↔
      ∃ a ∈ interfaces, a.internal = false ∧ a.family = "IPv4") ∧
    (∀ a, interfaces.find? usableAddress = some a →
      constructorSource interfaces port =
        Except.ok (a.address ++ ":" ++ toString port)) := by
  constructor
  · unfold constructorSource
    cases h : interfaces.find? usableAddress with
    | none =>
      simp only [Except.isOk, Except.toBool]
      constructor
      · intro hfalse
        cases hfalse
      · rintro ⟨a, ha, hint, hfam⟩
        have := List.find?_eq_none.mp h a ha
        simp [usableAddress, hint, hfam] at this
    | some a =>
      simp only [Except.isOk, Except.toBool]
      constructor
      · intro _
        refine ⟨a, List.mem_of_find?_eq_some h, ?_⟩
        have := List.find?_some h
        simpa [usableAddress] using this
      · intro _
        trivial
  · intro a h
    unfold constructorSource
    rw [h]

/-- Witness for C8: an internal loopback entry is skipped and the first
non-internal IPv4 address forms `source`. -/
theorem constructorSource_spec_witness :
    constructorSource
        [⟨"127.0.0.1", "IPv4", true⟩, ⟨"192.168.1.5", "IPv4", false⟩] 6425 =
      Except.ok ("192.168.1.5" ++ ":" ++ toString 6425) :=
  (constructorSource_spec
    [⟨"127.0.0.1", "IPv4", true⟩, ⟨"192.168.1.5", "IPv4", false⟩] 6425).2
    ⟨"192.168.1.5", "IPv4", false⟩ (by decide)

/-- C9: with `autoDiscovery` requested but the `mdns` capability missing,
bootstrap warns, creates no advertisement or browser, and still performs the
initial peers broadcast. -/
theorem onApplicationBootstrap_no_mdns (auto mdnsAvail : Bool)
    (h1 : auto = true) (h2 : mdnsAvail = false) :
    onApplicationBootstrap auto mdnsAvail =
      { discoveryStarted := false, warned := true, peersBroadcast := true } := by
  subst h1
  subst h2
  rfl

/-- Witness for C9. -/
theorem onApplicationBootstrap_no_mdns_witness :
    onApplicationBootstrap true false =
      { discoveryStarted := false, warned := true, peersBroadcast := true } :=
  onApplicationBootstrap_no_mdns true false rfl rfl

/-- C10 as stated is false: the shutdown hook leaves an armed node-removal
timer armed and the periodic gossip interval active. -/
theorem onApplicationShutdown_counterexample :
    (onApplicationShutdown ⟨true, true, ["node-a"], true⟩).removalTimers ≠
        [] ∧
    (onApplicationShutdown
        ⟨true, true, ["node-a"], true⟩).gossipIntervalActive = true := by
  decide

/-- C10 amended: the shutdown hook stops the discovery advertisement and
browser and nothing else — node-removal timers and the periodic gossip
interval are left untouched. -/
theorem onApplicationShutdown_spec (r : EngineResources) :
    (onApplicationShutdown r).advertisementRunning = false ∧
    (onApplicationShutdown r).browserRunning = false ∧
    (onApplicationShutdown r).removalTimers = r.removalTimers ∧
    (onApplicationShutdown r).gossipIntervalActive = r.gossipIntervalActive :=
  ⟨rfl, rfl, rfl, rfl⟩
